import Mathlib

/-!
Verification of the lxmfy translate-bot command layer (`bot.py`).

The Python source is shallowly embedded below.  External libraries
(argostranslate, lxmfy) are modelled at the boundary: the engine's install
and translate calls are supplied as explicit outcome parameters, replies are
returned as strings, and time durations are rationals.
-/

/-- A translation package descriptor, as returned by
`argostranslate.package.get_available_packages()`: a (from, to) language-code
pair (`p.from_code`, `p.to_code` in `bot.py`). -/
structure Package where
  from_code : String
  to_code : String
deriving DecidableEq, Repr

/-- The statistics fields initialised in `TranslateBot.__init__`
(bot.py:24-26): `translations_completed = 0`, `total_translation_time = 0.0`,
`translation_times = []`.  Durations are modelled as rationals. -/
structure RuntimeStats where
  translations_completed : Nat
  total_translation_time : Rat
  translation_times : List Rat
deriving DecidableEq, Repr

/-- The initial statistics state set up in `__init__` (bot.py:24-26). -/
def initStats : RuntimeStats :=
  { translations_completed := 0
    total_translation_time := 0
    translation_times := [] }

/-- The statistics update performed after a successful translation
(bot.py:83-89): increment `translations_completed`, add the elapsed time to
`total_translation_time`, append it to `translation_times`, and if the list
now has more than 100 entries, `pop(0)` the oldest. -/
def recordTranslation (s : RuntimeStats) (d : Rat) : RuntimeStats :=
  let times := s.translation_times ++ [d]
  { translations_completed := s.translations_completed + 1
    total_translation_time := s.total_translation_time + d
    translation_times := if times.length > 100 then times.tail else times }

/-- The stats state reached from `initStats` after the successful translations
with durations `ds`, in order. -/
def runTranslations (ds : List Rat) : RuntimeStats :=
  ds.foldl recordTranslation initStats

/-- Outcome of the engine calls made inside the `try` block of
`translate_command` (bot.py:78-79): `install_from_path(package.download())`
runs first and may raise; only if it succeeds does
`argostranslate.translate.translate` run, which may itself raise or return
the translated text together with the elapsed duration. -/
inductive EngineOutcome where
  | ok (duration : Rat) (translated : String)
  | installErr (msg : String)
  | translateErr (msg : String)
deriving DecidableEq, Repr

/-- The usage reply of `translate_command` (bot.py:56-60). -/
def usageMessage : String :=
  "Please provide source language, target language, and text to translate.\nExample: translate en es Hello world"

/-- The "not available" reply of `translate_command` (bot.py:96-99). -/
def unavailableMessage (src dst : String) : String :=
  "Sorry, translation from " ++ src ++ " to " ++ dst ++ " is not available."

/-- The exception reply of `translate_command` (bot.py:100-104). -/
def errorMessage (e : String) : String :=
  "Error during translation: " ++ e

/-- The success reply of `translate_command` (bot.py:91-94). -/
def translatedMessage (src dst translated : String) : String :=
  "Translation (" ++ src ++ " → " ++ dst ++ "):\n" ++ translated

/-- The observable result of one `translate_command` invocation: the reply
text sent via `ctx.reply`, the statistics state after the handler returns,
and whether the handler reached the `install_from_path` call (bot.py:78) and
the `translate` call (bot.py:79). -/
structure TranslateResult where
  reply : String
  stats : RuntimeStats
  installCalled : Bool
  translateCalled : Bool
deriving DecidableEq, Repr

/-- The package lookup of bot.py:68-72: first available package whose
`from_code`/`to_code` match the lowercased source/target arguments. -/
def findPackage (available : List Package) (src dst : String) : Option Package :=
  available.find? fun p => p.from_code == src && p.to_code == dst

/-- Python `str.lower()` (bot.py:63-64), modelled structurally over the
string's characters so that it evaluates in the kernel (ASCII case folding,
as `Char.toLower` provides). -/
def strLower (s : String) : String :=
  String.mk (s.data.map Char.toLower)

/-- Shallow embedding of `translate_command` (bot.py:50-104).
`args` is `ctx.args`; `available` is `self.available_packages`; `installed`
is the engine's installed-package state, which the handler never consults
(the install at bot.py:78 is unconditional); `outcome` stands for what the
engine calls inside the `try` block do on this invocation.  The handler
always returns normally; exceptions from install/translate are caught at
bot.py:100 and turned into an error reply, leaving the stats untouched. -/
def translate_command (args : List String) (available : List Package)
    (installed : List Package) (stats : RuntimeStats) (outcome : EngineOutcome) :
    TranslateResult :=
  match args with
  | a :: b :: _ :: _ =>
      let source_lang := strLower a
      let target_lang := strLower b
      match findPackage available source_lang target_lang with
      | some _ =>
          match outcome with
          | .ok d translated =>
              { reply := translatedMessage source_lang target_lang translated
                stats := recordTranslation stats d
                installCalled := true
                translateCalled := true }
          | .installErr e =>
              { reply := errorMessage e
                stats := stats
                installCalled := true
                translateCalled := false }
          | .translateErr e =>
              { reply := errorMessage e
                stats := stats
                installCalled := true
                translateCalled := true }
      | none =>
          { reply := unavailableMessage source_lang target_lang
            stats := stats
            installCalled := false
            translateCalled := false }
  | _ =>
      { reply := usageMessage
        stats := stats
        installCalled := false
        translateCalled := false }

/-- The average-translation-time computation of `stats_command`
(bot.py:176-178): `0.0` unless `translation_times` is non-empty, otherwise
`sum(translation_times) / len(translation_times)`. -/
def avg_translation_time (s : RuntimeStats) : Rat :=
  if s.translation_times.isEmpty then 0
  else s.translation_times.sum / (s.translation_times.length : Rat)

/-- The coverage-percentage expression of `stats_command` (bot.py:191):
`installed_count / total_available * 100`.  Python raises
`ZeroDivisionError` when `total_available` is zero; the fault is modelled as
`none`. -/
def coverage_percentage (installed_count total_available : Nat) : Option Rat :=
  if total_available = 0 then none
  else some ((installed_count : Rat) / (total_available : Rat) * 100)

/-- Outcome of one `install_from_path(package.download())` attempt performed
by the downloaders: success, or a raised exception with a message. -/
inductive InstallOutcome where
  | ok
  | fail (msg : String)
deriving DecidableEq, Repr

/-- `true` exactly when the install attempt for `p` raises. -/
def installFails (install : Package → InstallOutcome) (p : Package) : Bool :=
  match install p with
  | .ok => false
  | .fail _ => true

/-- Result of a pre-download run: the `(success_count, fail_count)` tally
returned by the downloader, with `attempted` recording the packages the loop
visited (the per-package download attempt at bot.py:214-215). -/
structure DownloadTally where
  success_count : Nat
  fail_count : Nat
  attempted : List Package
deriving DecidableEq, Repr

/-- Shallow embedding of `download_all_packages` (bot.py:206-222): iterate
every available package, attempt the install, and count successes and
failures; the `try/except` inside the loop means a failure never aborts the
remaining iterations. -/
def download_all_packages (available : List Package)
    (install : Package → InstallOutcome) : DownloadTally :=
  available.foldl
    (fun acc p =>
      match install p with
      | .ok =>
          { acc with
            success_count := acc.success_count + 1
            attempted := acc.attempted ++ [p] }
      | .fail _ =>
          { acc with
            fail_count := acc.fail_count + 1
            attempted := acc.attempted ++ [p] })
    { success_count := 0, fail_count := 0, attempted := [] }

/-- Modelled from the spec: `download_specific_packages` is called by `main`
at bot.py:288 but is not defined anywhere in the source.  Per spec section 4.5,
selective mode attempts each requested pair in turn, isolates individual
failures (continue-on-error), and reports a `(success_count, fail_count)`
tally; a pair with no matching available package, or whose install raises,
counts as a failure. -/
def download_specific_packages (available : List Package)
    (install : Package → InstallOutcome) (pairs : List (String × String)) :
    Nat × Nat :=
  pairs.foldl
    (fun acc pr =>
      match findPackage available pr.1 pr.2 with
      | some p =>
          match install p with
          | .ok => (acc.1 + 1, acc.2)
          | .fail _ => (acc.1, acc.2 + 1)
      | none => (acc.1, acc.2 + 1))
    (0, 0)

/-- Python `arg.split("-")` on a string viewed as a character list: split on
every hyphen, keeping empty segments, so `"".split` gives `[""]` and
`"-es".split` gives `["", "es"]`. -/
def splitOnHyphen : List Char → List (List Char)
  | [] => [[]]
  | c :: cs =>
      if c = '-' then [] :: splitOnHyphen cs
      else
        match splitOnHyphen cs with
        | [] => [[c]]
        | t :: ts => (c :: t) :: ts

/-- The per-token validation and destructuring in `main` (bot.py:279-281):
a token is accepted when `"-" in arg` and `arg.split("-")` has exactly two
parts, in which case the two parts are lowercased into a pair; otherwise the
token is rejected (`none`). -/
def parseDownloadArg (l : List Char) : Option (List Char × List Char) :=
  if l.contains '-' then
    match splitOnHyphen l with
    | [f, t] => some (f.map Char.toLower, t.map Char.toLower)
    | _ => none
  else none

/-- The pair-parsing loop of `main` (bot.py:277-284): tokens are validated in
order; the first malformed token makes `main` print a diagnostic naming it
and `return`, modelled as `Except.error` carrying that token. -/
def parseDownloadPairs : List (List Char) → Except (List Char) (List (List Char × List Char))
  | [] => .ok []
  | a :: rest =>
      match parseDownloadArg a with
      | some pr =>
          match parseDownloadPairs rest with
          | .ok prs => .ok (pr :: prs)
          | .error t => .error t
      | none => .error a

/-- The parsed command-line flags of `main` (bot.py:250-262):
`--download-all` is a boolean flag and `--download` optionally carries a
non-empty token list. -/
structure CliArgs where
  download_all : Bool
  download : Option (List (List Char))
deriving DecidableEq, Repr

/-- How a `main` invocation ends: either the bot reaches `bot.run()`
(bot.py:292) and serves commands, optionally after a pre-download tally, or
`main` returns early from the malformed-pair branch (bot.py:283-284) and the
serving loop is never entered. -/
inductive MainResult where
  | served (tally : Option (Nat × Nat))
  | invalidPairFormat (token : List Char)
deriving DecidableEq, Repr

/-- `true` exactly when the run reached the serving loop. -/
def servesCommands : MainResult → Bool
  | .served _ => true
  | .invalidPairFormat _ => false

/-- Shallow embedding of `main` (bot.py:248-292) from the argument parse
onward: on `--download-all`, run the bulk downloader and serve regardless of
its tally; on `--download`, parse the pair tokens, returning early on the
first malformed one, otherwise run the selective downloader (its pairs are
the lowercased parsed tokens, turned into strings) and serve; with neither
flag, serve directly.  (Named `mainEntry` because `main` is reserved.) -/
def mainEntry (args : CliArgs) (available : List Package)
    (install : Package → InstallOutcome) : MainResult :=
  if args.download_all then
    let t := download_all_packages available install
    .served (some (t.success_count, t.fail_count))
  else
    match args.download with
    | some tokens =>
        match parseDownloadPairs tokens with
        | .error t => .invalidPairFormat t
        | .ok pairs =>
            if pairs.isEmpty then .served none
            else
              .served (some (download_specific_packages available install
                (pairs.map fun pr => (String.mk pr.1, String.mk pr.2))))
    | none => .served none

/-- Python `" ".join(parts)` (bot.py:240). -/
def joinParts : List String → String
  | [] => ""
  | p :: ps => ps.foldl (fun acc q => acc ++ " " ++ q) p

/-- Shallow embedding of `format_uptime` (bot.py:224-240): split the integer
second count into days/hours/minutes/seconds by repeated `divmod`, render
each non-zero unit in descending order, always rendering seconds when no
other part was produced, and join with single spaces. -/
def format_uptime (seconds : Nat) : String :=
  let days := seconds / 86400
  let remainder := seconds % 86400
  let hours := remainder / 3600
  let remainder2 := remainder % 3600
  let minutes := remainder2 / 60
  let secs := remainder2 % 60
  let parts : List String := []
  let parts := if days > 0 then parts ++ [toString days ++ "d"] else parts
  let parts := if hours > 0 then parts ++ [toString hours ++ "h"] else parts
  let parts := if minutes > 0 then parts ++ [toString minutes ++ "m"] else parts
  let parts := if secs > 0 ∨ parts = [] then parts ++ [toString secs ++ "s"] else parts
  joinParts parts

/-- The rendering described by the spec, stated independently of the code:
descending units days, hours, minutes, seconds, each included exactly when
non-zero, except that seconds is also included when every larger unit is
zero. -/
def uptimeSpecRender (seconds : Nat) : String :=
  let days := seconds / 86400
  let remainder := seconds % 86400
  let hours := remainder / 3600
  let remainder2 := remainder % 3600
  let minutes := remainder2 / 60
  let secs := remainder2 % 60
  joinParts
    ((if days ≠ 0 then [toString days ++ "d"] else []) ++
     (if hours ≠ 0 then [toString hours ++ "h"] else []) ++
     (if minutes ≠ 0 then [toString minutes ++ "m"] else []) ++
     (if secs ≠ 0 ∨ (days = 0 ∧ hours = 0 ∧ minutes = 0) then [toString secs ++ "s"] else []))

/-! ### Helper lemmas -/

theorem runTranslations_concat (ds : List Rat) (d : Rat) :
    runTranslations (ds ++ [d]) = recordTranslation (runTranslations ds) d := by
  simp [runTranslations, List.foldl_append]

theorem runTranslations_completed (ds : List Rat) :
    (runTranslations ds).translations_completed = ds.length := by
  induction ds using List.reverseRecOn with
  | nil => rfl
  | append_singleton ds d ih =>
      rw [runTranslations_concat]
      simp [recordTranslation, ih]

theorem runTranslations_total (ds : List Rat) :
    (runTranslations ds).total_translation_time = ds.sum := by
  induction ds using List.reverseRecOn with
  | nil => rfl
  | append_singleton ds d ih =>
      rw [runTranslations_concat]
      simp [recordTranslation, ih]

theorem recordTranslation_times (s : RuntimeStats) (d : Rat) :
    (recordTranslation s d).translation_times =
      if (s.translation_times ++ [d]).length > 100 then (s.translation_times ++ [d]).tail
      else s.translation_times ++ [d] := rfl

theorem runTranslations_times (ds : List Rat) :
    (runTranslations ds).translation_times = ds.drop (ds.length - 100) := by
  induction ds using List.reverseRecOn with
  | nil => rfl
  | append_singleton ds d ih =>
      rw [runTranslations_concat]
      by_cases hlen : ds.length < 100
      · have h0 : ds.length - 100 = 0 := by omega
        have hcond : ¬ (ds.drop (ds.length - 100) ++ [d]).length > 100 := by
          rw [h0, List.drop_zero]
          simp only [List.length_append, List.length_singleton]
          omega
        have h1 : (ds ++ [d]).length - 100 = 0 := by
          simp only [List.length_append, List.length_singleton]
          omega
        rw [recordTranslation_times, ih, if_neg hcond, h0, List.drop_zero, h1, List.drop_zero]
      · have hl : (ds.drop (ds.length - 100)).length = 100 := by
          rw [List.length_drop]; omega
        have hcond : (ds.drop (ds.length - 100) ++ [d]).length > 100 := by
          simp only [List.length_append, List.length_singleton, hl]
          omega
        rw [recordTranslation_times, ih, if_pos hcond]
        have harith : (ds ++ [d]).length - 100 = (ds.length - 100) + 1 := by
          simp only [List.length_append, List.length_singleton]
          omega
        rw [harith, List.drop_append_of_le_length (by omega), ← List.tail_drop]
        obtain ⟨a, as, ha⟩ := List.exists_cons_of_ne_nil
          (show ds.drop (ds.length - 100) ≠ [] by intro h; rw [h] at hl; simp at hl)
        rw [ha, List.cons_append, List.tail_cons, List.tail_cons]

theorem download_all_packages_spec (available : List Package)
    (install : Package → InstallOutcome) :
    download_all_packages available install =
      { success_count := available.countP fun p => !installFails install p
        fail_count := available.countP (installFails install)
        attempted := available } := by
  have aux : ∀ (l : List Package) (acc : DownloadTally),
      l.foldl
        (fun acc p =>
          match install p with
          | .ok =>
              { acc with
                success_count := acc.success_count + 1
                attempted := acc.attempted ++ [p] }
          | .fail _ =>
              { acc with
                fail_count := acc.fail_count + 1
                attempted := acc.attempted ++ [p] }) acc =
        { success_count := acc.success_count + (l.countP fun p => !installFails install p)
          fail_count := acc.fail_count + l.countP (installFails install)
          attempted := acc.attempted ++ l } := by
    intro l
    induction l with
    | nil => intro acc; simp
    | cons p ps ih =>
        intro acc
        rcases hp : install p with _ | m
        · rw [List.foldl_cons, hp, ih]
          simp [List.countP_cons, installFails, hp]
          omega
        · rw [List.foldl_cons, hp, ih]
          simp [List.countP_cons, installFails, hp]
          omega
  rw [download_all_packages, aux]
  simp

theorem download_specific_packages_sum (available : List Package)
    (install : Package → InstallOutcome) (pairs : List (String × String)) :
    (download_specific_packages available install pairs).1 +
      (download_specific_packages available install pairs).2 = pairs.length := by
  have aux : ∀ (l : List (String × String)) (acc : Nat × Nat),
      (l.foldl
        (fun acc pr =>
          match findPackage available pr.1 pr.2 with
          | some p =>
              match install p with
              | .ok => (acc.1 + 1, acc.2)
              | .fail _ => (acc.1, acc.2 + 1)
          | none => (acc.1, acc.2 + 1)) acc).1 +
      (l.foldl
        (fun acc pr =>
          match findPackage available pr.1 pr.2 with
          | some p =>
              match install p with
              | .ok => (acc.1 + 1, acc.2)
              | .fail _ => (acc.1, acc.2 + 1)
          | none => (acc.1, acc.2 + 1)) acc).2 = acc.1 + acc.2 + l.length := by
    intro l
    induction l with
    | nil => intro acc; simp
    | cons pr prs ih =>
        intro acc
        rw [List.foldl_cons]
        rcases hf : findPackage available pr.1 pr.2 with _ | p
        · simp only [hf]
          rw [ih]
          simp; omega
        · rcases hi : install p with _ | m
          · simp only [hf, hi]
            rw [ih]
            simp; omega
          · simp only [hf, hi]
            rw [ih]
            simp; omega
  rw [download_specific_packages, aux]
  simp

theorem splitOnHyphen_ne_nil (l : List Char) : splitOnHyphen l ≠ [] := by
  induction l with
  | nil => simp [splitOnHyphen]
  | cons c cs ih =>
      rw [splitOnHyphen]
      by_cases hc : c = '-'
      · simp [hc]
      · rw [if_neg hc]
        rcases h : splitOnHyphen cs with _ | ⟨t, ts⟩
        · simp
        · simp

theorem splitOnHyphen_length (l : List Char) :
    (splitOnHyphen l).length = l.count '-' + 1 := by
  induction l with
  | nil => simp [splitOnHyphen]
  | cons c cs ih =>
      rw [splitOnHyphen]
      by_cases hc : c = '-'
      · rw [if_pos hc]
        simp [List.count_cons, hc, ih]
      · rw [if_neg hc]
        rcases h : splitOnHyphen cs with _ | ⟨t, ts⟩
        · exact absurd h (splitOnHyphen_ne_nil cs)
        · rw [h] at ih
          simp only [List.length_cons] at ih ⊢
          rw [List.count_cons]
          simp [hc, ih]

theorem parseDownloadArg_isSome_iff (l : List Char) :
    (parseDownloadArg l).isSome = true ↔ l.count '-' = 1 := by
  have hlen := splitOnHyphen_length l
  rw [parseDownloadArg]
  by_cases hc : l.contains '-' = true
  · rw [if_pos hc]
    rcases h : splitOnHyphen l with _ | ⟨f, rest⟩
    · exact absurd h (splitOnHyphen_ne_nil l)
    · rcases rest with _ | ⟨t, rest2⟩
      · rw [h] at hlen
        simp only [List.length_cons, List.length_nil] at hlen
        simp [show l.count '-' = 0 by omega]
      · rcases rest2 with _ | ⟨x, xs⟩
        · rw [h] at hlen
          simp only [List.length_cons, List.length_nil] at hlen
          simp [show l.count '-' = 1 by omega]
        · rw [h] at hlen
          simp only [List.length_cons] at hlen
          simp [show l.count '-' ≠ 1 by omega]
  · rw [if_neg hc]
    have hmem : '-' ∉ l := fun hm => hc (List.elem_iff.mpr hm)
    simp [List.count_eq_zero.mpr hmem]

theorem parseDownloadPairs_ok (tokens : List (List Char))
    (h : ∀ t ∈ tokens, (parseDownloadArg t).isSome = true) :
    ∃ prs, parseDownloadPairs tokens = .ok prs := by
  induction tokens with
  | nil => exact ⟨[], rfl⟩
  | cons a rest ih =>
      obtain ⟨pr, hpr⟩ := Option.isSome_iff_exists.mp (h a (by simp))
      obtain ⟨prs, hprs⟩ := ih fun t ht => h t (by simp [ht])
      exact ⟨pr :: prs, by simp only [parseDownloadPairs, hpr, hprs]⟩

theorem joinParts_length_ge (p : String) (ps : List String) :
    p.length ≤ (joinParts (p :: ps)).length := by
  have aux : ∀ (qs : List String) (acc : String),
      acc.length ≤ (qs.foldl (fun a q => a ++ " " ++ q) acc).length := by
    intro qs
    induction qs with
    | nil => intro acc; simp
    | cons q rest ih =>
        intro acc
        rw [List.foldl_cons]
        refine le_trans ?_ (ih (acc ++ " " ++ q))
        rw [String.length_append, String.length_append]
        omega
  exact aux ps p

theorem joinParts_length_pos (p : String) (ps : List String) (hp : 0 < p.length) :
    0 < (joinParts (p :: ps)).length := lt_of_lt_of_le hp (joinParts_length_ge p ps)

theorem length_append_pos (a b : String) (hb : 0 < b.length) : 0 < (a ++ b).length := by
  rw [String.length_append]; omega

theorem joinParts_ne_empty (p : String) (ps : List String) (hp : 0 < p.length) :
    joinParts (p :: ps) ≠ "" := by
  intro h
  have hge := joinParts_length_ge p ps
  rw [h] at hge
  have h0 : ("" : String).length = 0 := rfl
  omega

theorem uptime_eq (n : Nat) : format_uptime n = uptimeSpecRender n := by
  rw [format_uptime, uptimeSpecRender]
  by_cases hd : n / 86400 = 0 <;>
    by_cases hh : n % 86400 / 3600 = 0 <;>
      by_cases hm : n % 86400 % 3600 / 60 = 0 <;>
        by_cases hs : n % 86400 % 3600 % 60 = 0 <;>
          simp [hd, hh, hm, hs, Nat.pos_iff_ne_zero]

theorem uptime_ne_empty (n : Nat) : format_uptime n ≠ "" := by
  rw [format_uptime]
  by_cases hd : n / 86400 = 0 <;>
    by_cases hh : n % 86400 / 3600 = 0 <;>
      by_cases hm : n % 86400 % 3600 / 60 = 0 <;>
        by_cases hs : n % 86400 % 3600 % 60 = 0 <;>
          · simp [hd, hh, hm, hs, Nat.pos_iff_ne_zero]
            first
              | exact joinParts_ne_empty _ _ (length_append_pos _ "d" (by decide))
              | exact joinParts_ne_empty _ _ (length_append_pos _ "h" (by decide))
              | exact joinParts_ne_empty _ _ (length_append_pos _ "m" (by decide))
              | exact joinParts_ne_empty _ _ (length_append_pos _ "s" (by decide))

/-! ### Claim theorems -/

/-- C9: for every non-negative duration, `format_uptime` renders descending
units days, hours, minutes, seconds, each unit included only if non-zero,
except seconds which is always included when every larger unit is zero
(`uptimeSpecRender` states exactly that inclusion rule), so the result is
never empty; in particular 0 s renders "0s", 65 s renders "1m 5s", 3661 s
renders "1h 1m 1s", and 90000 s renders "1d 1h". -/
theorem format_uptime_spec_c9 :
    (∀ n : Nat, format_uptime n = uptimeSpecRender n) ∧
    (∀ n : Nat, format_uptime n ≠ "") ∧
    format_uptime 0 = "0s" ∧
    format_uptime 65 = "1m 5s" ∧
    format_uptime 3661 = "1h 1m 1s" ∧
    format_uptime 90000 = "1d 1h" :=
  ⟨uptime_eq, uptime_ne_empty, by decide, by decide, by decide, by decide⟩

/-- C2 (code bug): the coverage expression of `stats_command` (bot.py:191)
divides by the available-package count without any guard, so with an empty
available-package list it raises `ZeroDivisionError` (modelled `none`) for
every installed count, instead of reporting the 0% the spec requires. -/
theorem coverage_zero_available_faults_c2 :
    ∀ installed_count : Nat, coverage_percentage installed_count 0 = none :=
  fun _ => rfl

/-- C3 counterexample: after the 101 successful translations with durations
`1, 0, …, 0`, the completed count is positive, yet the reported average
(the mean of the rolling window, here `0`) differs from cumulative total ÷
completed count (here `1/101`), refuting the claim for a reachable state
with more than 100 completed translations. -/
theorem avg_translation_time_cex_c3 :
    (runTranslations ((1 : Rat) :: List.replicate 100 0)).translations_completed > 0 ∧
    avg_translation_time (runTranslations ((1 : Rat) :: List.replicate 100 0)) ≠
      (runTranslations ((1 : Rat) :: List.replicate 100 0)).total_translation_time /
        ((runTranslations ((1 : Rat) :: List.replicate 100 0)).translations_completed : Rat) := by
  constructor
  · rw [runTranslations_completed]
    simp
  · rw [avg_translation_time, runTranslations_times, runTranslations_total,
      runTranslations_completed]
    simp [List.sum_replicate]

/-- C3 (amended): for every reachable RuntimeStats state the stats handler
reports the mean of the rolling-duration window — the sum of the at most 100
most recent durations divided by their number — and 0.0 when no translation
has completed; this agrees with cumulative total ÷ completed count only while
the completed count is at most 100. -/
theorem avg_translation_time_rolling_c3 :
    (∀ ds : List Rat,
      avg_translation_time (runTranslations ds) =
        if ds.length = 0 then 0
        else (ds.drop (ds.length - 100)).sum / ((min ds.length 100 : Nat) : Rat)) ∧
    (∀ ds : List Rat, 0 < ds.length → ds.length ≤ 100 →
      avg_translation_time (runTranslations ds) =
        (runTranslations ds).total_translation_time /
          ((runTranslations ds).translations_completed : Rat)) := by
  have main : ∀ ds : List Rat,
      avg_translation_time (runTranslations ds) =
        if ds.length = 0 then 0
        else (ds.drop (ds.length - 100)).sum / ((min ds.length 100 : Nat) : Rat) := by
    intro ds
    rw [avg_translation_time, runTranslations_times]
    by_cases h : ds.length = 0
    · rw [List.length_eq_zero.mp h]
      simp
    · have hlen : (ds.drop (ds.length - 100)).length = min ds.length 100 := by
        rw [List.length_drop]
        omega
      have hne : ds.drop (ds.length - 100) ≠ [] := by
        intro hnil
        rw [hnil] at hlen
        simp at hlen
        omega
      rw [if_neg h, if_neg (by simpa [List.isEmpty_iff] using hne), hlen]
  refine ⟨main, fun ds h1 h2 => ?_⟩
  rw [main ds, if_neg (by omega), runTranslations_total, runTranslations_completed]
  have hdrop : ds.length - 100 = 0 := by omega
  have hmin : min ds.length 100 = ds.length := by omega
  rw [hdrop, hmin, List.drop_zero]

/-- C4: the rolling-duration list never exceeds 100 entries and evicts
oldest-first; after 101 successful translations with durations `d1..d101`
the list is exactly `d2..d101` (the tail) in order, while the completed
count is 101 and the cumulative total is the sum of all 101 durations. -/
theorem rolling_window_c4 (ds : List Rat) (h : ds.length = 101) :
    (runTranslations ds).translation_times = ds.tail ∧
    (runTranslations ds).translations_completed = 101 ∧
    (runTranslations ds).total_translation_time = ds.sum ∧
    ∀ es : List Rat, (runTranslations es).translation_times.length ≤ 100 := by
  refine ⟨?_, ?_, runTranslations_total ds, fun es => ?_⟩
  · rw [runTranslations_times, h, List.drop_one]
  · rw [runTranslations_completed, h]
  · rw [runTranslations_times, List.length_drop]
    omega

/-- C4 witness: the theorem applied to the concrete run of 101 translations
of duration 1 each. -/
theorem rolling_window_c4_witness :
    (List.replicate 101 (1 : Rat)).length = 101 ∧
    ((runTranslations (List.replicate 101 (1 : Rat))).translation_times =
        (List.replicate 101 (1 : Rat)).tail ∧
      (runTranslations (List.replicate 101 (1 : Rat))).translations_completed = 101 ∧
      (runTranslations (List.replicate 101 (1 : Rat))).total_translation_time =
        (List.replicate 101 (1 : Rat)).sum ∧
      ∀ es : List Rat, (runTranslations es).translation_times.length ≤ 100) :=
  ⟨by simp, rolling_window_c4 _ (by simp)⟩

/-- C5: when the pair matches an available package and the install or the
translation call raises, the handler catches the exception, replies with the
error text, returns normally, and leaves every RuntimeStats field unchanged
(the stats update at bot.py:83-89 runs only after a successful translate). -/
theorem translate_error_isolated_c5 (a b c : String) (rest : List String)
    (available installed : List Package) (stats : RuntimeStats) (e : String)
    (outcome : EngineOutcome)
    (hpkg : (findPackage available (strLower a) (strLower b)).isSome = true)
    (herr : outcome = .installErr e ∨ outcome = .translateErr e) :
    (translate_command (a :: b :: c :: rest) available installed stats outcome).reply =
      errorMessage e ∧
    (translate_command (a :: b :: c :: rest) available installed stats outcome).stats =
      stats := by
  obtain ⟨p, hp⟩ := Option.isSome_iff_exists.mp hpkg
  rcases herr with rfl | rfl <;> simp [translate_command, hp]

/-- C5 witness: a failing install on a concrete matching invocation. -/
theorem translate_error_isolated_c5_witness :
    (translate_command ["en", "es", "hi"] [⟨"en", "es"⟩] [] initStats
        (.installErr "boom")).reply = errorMessage "boom" ∧
    (translate_command ["en", "es", "hi"] [⟨"en", "es"⟩] [] initStats
        (.installErr "boom")).stats = initStats :=
  translate_error_isolated_c5 "en" "es" "hi" [] [⟨"en", "es"⟩] [] initStats "boom" _
    (by decide) (Or.inl rfl)

/-- C6: a translate invocation with fewer than three argument tokens replies
with the usage message, and one whose lowercased pair matches no available
package replies with the unavailable message; in both cases no engine call is
made and the RuntimeStats state is returned unchanged. -/
theorem translate_no_op_paths_c6 :
    (∀ (args : List String) (available installed : List Package)
        (stats : RuntimeStats) (outcome : EngineOutcome), args.length < 3 →
      translate_command args available installed stats outcome =
        { reply := usageMessage, stats := stats
          installCalled := false, translateCalled := false }) ∧
    (∀ (a b c : String) (rest : List String) (available installed : List Package)
        (stats : RuntimeStats) (outcome : EngineOutcome),
      findPackage available (strLower a) (strLower b) = none →
      translate_command (a :: b :: c :: rest) available installed stats outcome =
        { reply := unavailableMessage (strLower a) (strLower b), stats := stats
          installCalled := false, translateCalled := false }) := by
  constructor
  · intro args available installed stats outcome hlen
    match args with
    | [] => rfl
    | [_] => rfl
    | [_, _] => rfl
    | _ :: _ :: _ :: _ =>
        simp only [List.length_cons] at hlen
        omega
  · intro a b c rest available installed stats outcome hnone
    simp [translate_command, hnone]

/-- C6 witness: the theorem at a one-token invocation and at a three-token
invocation whose pair is not available. -/
theorem translate_no_op_paths_c6_witness :
    translate_command ["en"] [] [] initStats (.ok 1 "x") =
      { reply := usageMessage, stats := initStats
        installCalled := false, translateCalled := false } ∧
    translate_command ["en", "es", "hi"] [] [] initStats (.ok 1 "x") =
      { reply := unavailableMessage "en" "es", stats := initStats
        installCalled := false, translateCalled := false } :=
  ⟨translate_no_op_paths_c6.1 ["en"] [] [] initStats (.ok 1 "x") (by decide),
   translate_no_op_paths_c6.2 "en" "es" "hi" [] [] [] initStats (.ok 1 "x") rfl⟩

/-- C7 counterexample: a concrete invocation whose package is already in the
installed list, yet the handler still reaches the download-and-install call
(bot.py:78 runs unconditionally once a package matches), refuting "the
download-and-install step is invoked only when the package is not already
installed". -/
theorem install_not_conditional_cex_c7 :
    (translate_command ["en", "es", "hello"] [⟨"en", "es"⟩] [⟨"en", "es"⟩] initStats
        (.ok 1 "hola")).installCalled = true ∧
    (⟨"en", "es"⟩ : Package) ∈ ([⟨"en", "es"⟩] : List Package) := by
  constructor
  · rfl
  · simp

/-- C7 (amended): whenever the lowercased pair matches an available package
the handler invokes the download-and-install step unconditionally — including
when the package is already installed, relying on the install being
idempotent — before performing the translation call. -/
theorem install_always_called_c7 (a b c : String) (rest : List String)
    (available installed : List Package) (stats : RuntimeStats)
    (outcome : EngineOutcome)
    (hpkg : (findPackage available (strLower a) (strLower b)).isSome = true) :
    (translate_command (a :: b :: c :: rest) available installed stats
        outcome).installCalled = true := by
  obtain ⟨p, hp⟩ := Option.isSome_iff_exists.mp hpkg
  cases outcome <;> simp [translate_command, hp]

/-- C7 amended-claim witness: the install call is reached on a concrete
invocation whose package is already installed. -/
theorem install_always_called_c7_witness :
    (translate_command ["en", "es", "hello"] [⟨"en", "es"⟩] [⟨"en", "es"⟩] initStats
        (.ok 1 "hola")).installCalled = true :=
  install_always_called_c7 "en" "es" "hello" [] [⟨"en", "es"⟩] [⟨"en", "es"⟩] initStats
    (.ok 1 "hola") (by decide)

/-- C1: both pre-download modes tally successes and failures over the
attempted packages without aborting on a failure: a bulk run over `n`
available packages with exactly one failing install yields the tally
`(n - 1, 1)` and still attempts every package, and the selective mode
(modelled from the spec, since `download_specific_packages` is called at
bot.py:288 but not defined in the source) attempts all requested pairs, its
tally always summing to their number. -/
theorem download_tally_c1 (available : List Package)
    (install : Package → InstallOutcome) (pairs : List (String × String))
    (h : available.countP (installFails install) = 1) :
    (download_all_packages available install).success_count = available.length - 1 ∧
    (download_all_packages available install).fail_count = 1 ∧
    (download_all_packages available install).attempted = available ∧
    (download_specific_packages available install pairs).1 +
      (download_specific_packages available install pairs).2 = pairs.length := by
  rw [download_all_packages_spec]
  refine ⟨?_, h, rfl, download_specific_packages_sum available install pairs⟩
  have hfun : (fun p => !installFails install p) =
      (fun p => decide ¬(installFails install p = true)) := by
    funext p
    cases installFails install p <;> rfl
  have hsplit := List.length_eq_countP_add_countP (installFails install) available
  dsimp only
  rw [hfun]
  omega

/-- C1 witness: three available packages of which exactly the second fails:
the tally is (2, 1), all three packages are attempted, and a selective run
over two requested pairs tallies to their number. -/
theorem download_tally_c1_witness :
    (([⟨"a", "b"⟩, ⟨"c", "d"⟩, ⟨"e", "f"⟩] : List Package).countP
        (installFails fun p => if p = ⟨"c", "d"⟩ then .fail "x" else .ok) = 1) ∧
    ((download_all_packages [⟨"a", "b"⟩, ⟨"c", "d"⟩, ⟨"e", "f"⟩]
          (fun p => if p = ⟨"c", "d"⟩ then .fail "x" else .ok)).success_count =
        ([⟨"a", "b"⟩, ⟨"c", "d"⟩, ⟨"e", "f"⟩] : List Package).length - 1 ∧
      (download_all_packages [⟨"a", "b"⟩, ⟨"c", "d"⟩, ⟨"e", "f"⟩]
          (fun p => if p = ⟨"c", "d"⟩ then .fail "x" else .ok)).fail_count = 1 ∧
      (download_all_packages [⟨"a", "b"⟩, ⟨"c", "d"⟩, ⟨"e", "f"⟩]
          (fun p => if p = ⟨"c", "d"⟩ then .fail "x" else .ok)).attempted =
        [⟨"a", "b"⟩, ⟨"c", "d"⟩, ⟨"e", "f"⟩] ∧
      (download_specific_packages [⟨"a", "b"⟩, ⟨"c", "d"⟩, ⟨"e", "f"⟩]
            (fun p => if p = ⟨"c", "d"⟩ then .fail "x" else .ok)
            [("a", "b"), ("x", "y")]).1 +
        (download_specific_packages [⟨"a", "b"⟩, ⟨"c", "d"⟩, ⟨"e", "f"⟩]
            (fun p => if p = ⟨"c", "d"⟩ then .fail "x" else .ok)
            [("a", "b"), ("x", "y")]).2 =
        ([("a", "b"), ("x", "y")] : List (String × String)).length) :=
  ⟨by decide, download_tally_c1 _ _ _ (by decide)⟩

/-- C8 counterexample: with `--download en_es` (a malformed pair token),
`main` takes the early `return` at bot.py:283-284: the run ends in
`invalidPairFormat` and the serving loop is never entered — refuting "main
still proceeds past the pre-download step for every configuration". -/
theorem main_aborts_cex_c8 :
    mainEntry { download_all := false, download := some [['e', 'n', '_', 'e', 's']] } []
        (fun _ => .ok) = .invalidPairFormat ['e', 'n', '_', 'e', 's'] ∧
    servesCommands
      (mainEntry { download_all := false, download := some [['e', 'n', '_', 'e', 's']] } []
        (fun _ => .ok)) = false :=
  ⟨rfl, rfl⟩

/-- C8 (amended): `main` reaches the serving loop for every pre-download
outcome — all installs succeeding or any of them failing — provided either
`--download-all` is set or every `--download` token is well-formed (exactly
one hyphen); a malformed token instead makes `main` return before serving. -/
theorem main_serves_c8 (args : CliArgs) (available : List Package)
    (install : Package → InstallOutcome)
    (h : args.download_all = true ∨
      ∀ tokens, args.download = some tokens → ∀ t ∈ tokens, t.count '-' = 1) :
    servesCommands (mainEntry args available install) = true := by
  rcases h with h | h
  · simp [mainEntry, h, servesCommands]
  · by_cases hall : args.download_all = true
    · simp [mainEntry, hall, servesCommands]
    · rcases hdl : args.download with _ | tokens
      · simp [mainEntry, hall, hdl, servesCommands]
      · obtain ⟨prs, hprs⟩ := parseDownloadPairs_ok tokens
          (fun t ht => (parseDownloadArg_isSome_iff t).mpr (h tokens hdl t ht))
        by_cases hempty : prs.isEmpty = true <;>
          simp [mainEntry, hall, hdl, hprs, hempty, servesCommands]

/-- C8 amended-claim witness: a selective run whose single well-formed pair
fails to install still reaches the serving loop. -/
theorem main_serves_c8_witness :
    servesCommands
      (mainEntry { download_all := false, download := some [['e', 'n', '-', 'e', 's']] } []
        (fun _ => .fail "x")) = true :=
  main_serves_c8 _ _ _ (Or.inr (fun tokens htok => by
    simp only [Option.some.injEq] at htok
    subst htok
    intro t ht
    simp only [List.mem_singleton] at ht
    subst ht
    decide))

/-- C10: the selective-download validation accepts exactly the tokens with a
single hyphen: acceptance is equivalent to hyphen-count 1, `-es` is accepted
as the pair `("", "es")`, `en-` as `("en", "")`, the parts are lowercased,
and tokens with zero hyphens or more than one are rejected. -/
theorem download_pair_validation_c10 :
    (∀ l : List Char, (parseDownloadArg l).isSome = true ↔ l.count '-' = 1) ∧
    parseDownloadArg ['-', 'e', 's'] = some ([], ['e', 's']) ∧
    parseDownloadArg ['e', 'n', '-'] = some (['e', 'n'], []) ∧
    parseDownloadArg ['E', 'N', '-', 'e', 's'] = some (['e', 'n'], ['e', 's']) ∧
    parseDownloadArg ['e', 'n', '_', 'e', 's'] = none ∧
    parseDownloadArg ['e', 'n', '-', 'e', 's', '-', 'f', 'r'] = none :=
  ⟨parseDownloadArg_isSome_iff, by decide, by decide, by decide, by decide, by decide⟩
